import Mathlib

set_option maxHeartbeats 1000000

namespace GemProfit

/-- Boolean prefix test on character lists: `leadMatch p l` is true iff the
list `p` is an initial segment of `l`. -/
def leadMatch : List Char → List Char → Bool
  | [], _ => true
  | _ :: _, [] => false
  | a :: as, b :: bs => a == b && leadMatch as bs

/-- The Python membership test `pat in s` on character lists: true iff `pat`
occurs contiguously somewhere in the list. -/
def listContains (pat : List Char) : List Char → Bool
  | [] => leadMatch pat []
  | c :: rest => leadMatch pat (c :: rest) || listContains pat rest

/-- The Python membership test `pat in s` for strings. -/
def strIn (pat s : String) : Bool := listContains pat.data s.data

/-- `gem_quality_type` from `src/src/main.py`: walks the quality-marker table
in insertion order (Vaal; then Anomalous, Divergent, Phantasmal; then
Awakened) and returns the quality of the first marker occurring as a
substring of the name, defaulting to Basic. -/
def gem_quality_type (name : String) : String :=
  if strIn "Vaal" name then "Vaal"
  else if strIn "Anomalous" name then "Alternative"
  else if strIn "Divergent" name then "Alternative"
  else if strIn "Phantasmal" name then "Alternative"
  else if strIn "Awakened" name then "Awakened"
  else "Basic"

/-- The Python `str.replace(pat, "")` scan on character lists: walks left to
right and removes every non-overlapping occurrence of the nonempty pattern
`p :: ps`, resuming the scan after each removed occurrence. -/
def replaceChars (p : Char) (ps : List Char) : Nat → List Char → List Char
  | _, [] => []
  | 0, l => l
  | fuel + 1, c :: rest =>
    if leadMatch (p :: ps) (c :: rest) then
      replaceChars p ps fuel (rest.drop ps.length)
    else
      c :: replaceChars p ps fuel rest

/-- The Python string method `s.replace(pat, "")`: removes every occurrence
of `pat` from `s` (all occurrences, scanning left to right). The fuel
argument of the scan starts at the length of the list and never runs out,
since every step consumes at least one character. -/
def replaceAll (pat s : String) : String :=
  match pat.data with
  | [] => s
  | p :: ps => String.mk (replaceChars p ps s.data.length s.data)

/-- Modelled from the spec: removal of only the FIRST occurrence of the
pattern, as the spec words the Vaal-name normalization. Defined solely to be
compared against `replaceAll`, which is what the code does. -/
def removeFirstChars (p : Char) (ps : List Char) : List Char → List Char
  | [] => []
  | c :: rest =>
    if leadMatch (p :: ps) (c :: rest) then
      rest.drop ps.length
    else
      c :: removeFirstChars p ps rest

/-- Modelled from the spec: `s` with the first occurrence of `pat` removed. -/
def removeFirstSpec (pat s : String) : String :=
  match pat.data with
  | [] => s
  | p :: ps => String.mk (removeFirstChars p ps s.data)

/-- Modelled from the spec: the `gems` module (class `gems.Gem`) is not under
`src/`. Per §3 of the spec, a GemRecord carries the gem name (set once at
creation), price fields that start absent, and listing counts defaulting
to 0. The field order follows the column order assigned in `save_data`. -/
structure Gem where
  name : String
  base_price : Option ℚ := none
  fail_price : Option ℚ := none
  success_price : Option ℚ := none
  listed_21_20 : Nat := 0
  vaal_price : Option ℚ := none
  leveled_price : Option ℚ := none
  listed_leveled : Nat := 0
deriving DecidableEq, Repr

/-- The rule cascade in the body of `create_gem_object` (lines 62 to 87 of
`src/src/main.py`): given the variant string, the classified quality, the
price and the listing count, update the matching fields of the gem object.
The nine guard names mirror the local booleans in the source. -/
def updateGem (obj : Gem) (variant quality : String) (price : ℚ) (listed : Nat) : Gem :=
  let is_basic_1_20 := variant == "1/20" && quality == "Basic"
  let is_alternative_1 := variant == "1" && quality == "Alternative"
  let is_awakened_1 := variant == "1" && quality == "Awakened"
  let is_leveled_20_20 := variant == "20/20"
  let is_not_vaal_20_20c := variant == "20/20c" && quality != "Vaal"
  let is_awakened_5_20c := variant == "5/20c" && quality == "Awakened"
  let is_vaal_20_20c := variant == "20/20c" && quality == "Vaal"
  let is_not_vaal_21_20c := variant == "21/20c" && quality != "Vaal"
  let is_awakened_6_20c := variant == "6/20c" && quality == "Awakened"
  if is_basic_1_20 || is_alternative_1 || is_awakened_1 then
    { obj with base_price := some price }
  else if is_leveled_20_20 then
    { obj with leveled_price := some price, listed_leveled := listed }
  else if is_not_vaal_20_20c || is_awakened_5_20c then
    { obj with fail_price := some price }
  else if is_vaal_20_20c then
    { obj with vaal_price := some price }
  else if is_not_vaal_21_20c || is_awakened_6_20c then
    { obj with success_price := some price, listed_21_20 := listed }
  else
    obj

/-- The registry `gems.Gem.dictionary`, embedded as an association list over
gem names in insertion order (a Python dict keeps keys unique and preserves
insertion order). -/
abbrev GemDict := List (String × Gem)

/-- Python dictionary membership and access, `dictionary[gem_name]`. -/
def alookup : GemDict → String → Option Gem
  | [], _ => none
  | (k, g) :: rest, key => if k == key then some g else alookup rest key

/-- In-place mutation of the object stored at a key: apply `f` to the value
at the first (only) matching key, leaving other entries alone. -/
def aupdate : GemDict → String → (Gem → Gem) → GemDict
  | [], _, _ => []
  | (k, g) :: rest, key, f =>
    if k == key then (k, f g) :: rest else (k, g) :: aupdate rest key f

/-- `create_gem_object` from `src/src/main.py`: inserts a fresh gem object
when the name is not yet a key of the registry, then updates the stored
object through the rule cascade. The registry is passed and returned
explicitly here; in the source it is the class-level `gems.Gem.dictionary`. -/
def create_gem_object (dict : GemDict) (gem_name variant : String)
    (price : ℚ) (quality : String) (listed : Nat) : GemDict :=
  let dict1 :=
    if (alookup dict gem_name).isNone then dict ++ [(gem_name, { name := gem_name })]
    else dict
  aupdate dict1 gem_name (fun obj => updateGem obj variant quality price listed)

/-- One raw API record, per §3 of the spec: `listingCount` is optional (its
absence is the KeyError branch in `go_over_elements`). -/
structure RawRecord where
  name : String
  variant : String
  chaosValue : ℚ
  listingCount : Option Nat := none
deriving DecidableEq, Repr

/-- The loop body of `go_over_elements`: default the listing count to 0 when
absent, classify the name, strip "Vaal " from the name of Vaal-quality gems,
and hand everything to `create_gem_object`. -/
def processRecord (dict : GemDict) (gem : RawRecord) : GemDict :=
  let listed := gem.listingCount.getD 0
  let quality := gem_quality_type gem.name
  let gem_name := if quality == "Vaal" then replaceAll "Vaal " gem.name else gem.name
  create_gem_object dict gem_name gem.variant gem.chaosValue quality listed

/-- `go_over_elements` from `src/src/main.py`: folds the records of the
`lines` array, in order, into the registry. The source reads and returns the
shared class-level dictionary; here the prior registry state is the explicit
first argument, so that statements about that shared state can be made. -/
def go_over_elements (dict : GemDict) (lines : List RawRecord) : GemDict :=
  lines.foldl processRecord dict

/-- The aggregation key a record ends up stored under. -/
def recordKey (r : RawRecord) : String :=
  if gem_quality_type r.name == "Vaal" then replaceAll "Vaal " r.name else r.name

/-- One row of `gems_to_corrupt.csv`: the first DataFrame projection in
`save_data` (Gem Name, Buy price, Corrupted 20/20, Success 21/20,
Listed 21/20, Vaal price). -/
structure CorruptRow where
  gemName : String
  buyPrice : Option ℚ
  corrupted2020 : Option ℚ
  success2120 : Option ℚ
  listed2120 : Nat
  vaalPrice : Option ℚ
deriving DecidableEq, Repr

/-- One row of `gems_to_level.csv`: the second DataFrame projection in
`save_data` (Gem Name, Buy price, Leveled 20/20, Listed L20/20). -/
structure LevelRow where
  gemName : String
  buyPrice : Option ℚ
  leveled2020 : Option ℚ
  listedL2020 : Nat
deriving DecidableEq, Repr

def corruptRow (g : Gem) : CorruptRow :=
  ⟨g.name, g.base_price, g.fail_price, g.success_price, g.listed_21_20, g.vaal_price⟩

def levelRow (g : Gem) : LevelRow :=
  ⟨g.name, g.base_price, g.leveled_price, g.listed_leveled⟩

/-- The row order produced by a descending sort on an optional key column:
present values in descending order, with absent values (NaN in the
DataFrame) placed after every present value, as pandas `sort_values` does
with its default `na_position`. `descAbsentLast a b` says a row with key `a`
may come before a row with key `b`. -/
def descAbsentLast (a b : Option ℚ) : Bool :=
  match a, b with
  | some x, some y => y ≤ x
  | some _, none => true
  | none, some _ => false
  | none, none => true

/-- `save_data` from `src/src/main.py`, at the level of rows: build the two
projections of the registry (rows in registry order), sort the corrupt
report descending by Success 21/20 and the level report descending by
Leveled 20/20, absent values last. Modelled from the spec where the source
delegates to pandas: the DataFrame columns come from the attribute order of
the `gems.Gem` objects, and sorting is `sort_values(ascending=False)`. -/
def save_data (dict : GemDict) : List CorruptRow × List LevelRow :=
  let df1 := dict.map fun kv => corruptRow kv.2
  let df2 := dict.map fun kv => levelRow kv.2
  (df1.mergeSort fun a b => descAbsentLast a.success2120 b.success2120,
   df2.mergeSort fun a b => descAbsentLast a.leveled2020 b.leveled2020)

/-- The five groups of fields that the rule cascade of `create_gem_object`
can assign: base, leveled, fail, vaal (semi fail) and success. -/
inductive FieldSlot
  | base
  | leveled
  | fail
  | vaal
  | success
deriving DecidableEq, Repr

/-- The guard of the rule cascade selecting each field group, exactly the
boolean conditions of `create_gem_object`. -/
def slotCond (s : FieldSlot) (variant quality : String) : Bool :=
  match s with
  | .base =>
      variant == "1/20" && quality == "Basic" ||
      variant == "1" && quality == "Alternative" ||
      variant == "1" && quality == "Awakened"
  | .leveled => variant == "20/20"
  | .fail =>
      variant == "20/20c" && quality != "Vaal" ||
      variant == "5/20c" && quality == "Awakened"
  | .vaal => variant == "20/20c" && quality == "Vaal"
  | .success =>
      variant == "21/20c" && quality != "Vaal" ||
      variant == "6/20c" && quality == "Awakened"

/-- The value held by a field group: the price field together with its
listing count (a constant 0 for the groups that carry no listing field). -/
def slotVal (s : FieldSlot) (g : Gem) : Option ℚ × Nat :=
  match s with
  | .base => (g.base_price, 0)
  | .leveled => (g.leveled_price, g.listed_leveled)
  | .fail => (g.fail_price, 0)
  | .vaal => (g.vaal_price, 0)
  | .success => (g.success_price, g.listed_21_20)

/-- What a matching record writes into a field group. -/
def slotWrite (s : FieldSlot) (price : ℚ) (listed : Nat) : Option ℚ × Nat :=
  match s with
  | .base => (some price, 0)
  | .leveled => (some price, listed)
  | .fail => (some price, 0)
  | .vaal => (some price, 0)
  | .success => (some price, listed)

/-- A record matches some rule of the cascade. -/
def matchesRule (variant quality : String) : Bool :=
  slotCond .base variant quality || slotCond .leveled variant quality ||
  slotCond .fail variant quality || slotCond .vaal variant quality ||
  slotCond .success variant quality

theorem leadMatch_iff (p l : List Char) : leadMatch p l = true ↔ p <+: l := by
  induction p generalizing l with
  | nil => simp [leadMatch]
  | cons a as ih =>
    cases l with
    | nil => simp [leadMatch]
    | cons b bs => simp [leadMatch, List.cons_prefix_cons, ih, and_comm]

theorem listContains_iff (p l : List Char) : listContains p l = true ↔ p <:+: l := by
  induction l with
  | nil =>
    simp [listContains, leadMatch_iff]
  | cons c rest ih =>
    simp [listContains, leadMatch_iff, ih, List.infix_cons_iff]

theorem strIn_iff (pat s : String) : strIn pat s = true ↔ pat.data <:+: s.data :=
  listContains_iff pat.data s.data

theorem descAbsentLast_trans (a b c : Option ℚ) (h1 : descAbsentLast a b = true)
    (h2 : descAbsentLast b c = true) : descAbsentLast a c = true := by
  cases a <;> cases b <;> cases c <;> simp_all [descAbsentLast]
  exact le_trans h2 h1

theorem descAbsentLast_total (a b : Option ℚ) :
    (descAbsentLast a b || descAbsentLast b a) = true := by
  cases a <;> cases b <;> simp [descAbsentLast]
  exact le_total _ _

theorem updateGem_name (obj : Gem) (v q : String) (p : ℚ) (l : Nat) :
    (updateGem obj v q p l).name = obj.name := by
  simp only [updateGem]
  split_ifs <;> rfl

theorem updateGem_slot (s : FieldSlot) (obj : Gem) (v q : String) (p : ℚ) (l : Nat) :
    slotVal s (updateGem obj v q p l) =
      if slotCond s v q then slotWrite s p l else slotVal s obj := by
  cases s <;>
  · simp only [updateGem, slotVal, slotCond, slotWrite]
    split_ifs <;> simp_all <;> aesop

theorem updateGem_no_rule (obj : Gem) (v q : String) (p : ℚ) (l : Nat)
    (h : matchesRule v q = false) :
    updateGem obj v q p l = obj := by
  simp only [matchesRule, Bool.or_eq_false_iff] at h
  obtain ⟨⟨⟨⟨h1, h2⟩, h3⟩, h4⟩, h5⟩ := h
  simp only [slotCond] at h1 h2 h3 h4 h5
  simp only [updateGem, h1, h2, h3, h4, h5]
  rfl

theorem alookup_aupdate (d : GemDict) (key key' : String) (f : Gem → Gem) :
    alookup (aupdate d key f) key' =
      if key = key' then (alookup d key).map f else alookup d key' := by
  induction d with
  | nil => simp [aupdate, alookup]
  | cons e rest ih =>
    obtain ⟨k, g⟩ := e
    by_cases h1 : k = key <;> by_cases h2 : key = key' <;>
      simp_all [aupdate, alookup]

theorem alookup_append (d : GemDict) (k : String) (g : Gem) (key : String) :
    alookup (d ++ [(k, g)]) key =
      match alookup d key with
      | some x => some x
      | none => if k = key then some g else none := by
  induction d with
  | nil => by_cases h : k = key <;> simp_all [alookup]
  | cons e rest ih =>
    obtain ⟨k1, g1⟩ := e
    by_cases h : k1 = key <;> simp_all [alookup]

theorem alookup_create_self (d : GemDict) (n v : String) (p : ℚ) (q : String) (l : Nat) :
    alookup (create_gem_object d n v p q l) n =
      some (updateGem ((alookup d n).getD { name := n }) v q p l) := by
  simp only [create_gem_object, alookup_aupdate, if_pos rfl]
  cases hd : alookup d n <;> simp [hd, alookup_append]

theorem alookup_create_other (d : GemDict) (n v : String) (p : ℚ) (q : String) (l : Nat)
    (key : String) (h : key ≠ n) :
    alookup (create_gem_object d n v p q l) key = alookup d key := by
  have hne : ¬ (n = key) := fun he => h he.symm
  simp only [create_gem_object, alookup_aupdate, if_neg hne]
  cases hd : alookup d n <;> cases hk : alookup d key <;>
    simp [hd, hk, alookup_append, if_neg hne]

theorem processRecord_eq (d : GemDict) (r : RawRecord) :
    processRecord d r =
      create_gem_object d (recordKey r) r.variant r.chaosValue
        (gem_quality_type r.name) (r.listingCount.getD 0) := rfl

theorem processRecord_self (d : GemDict) (r : RawRecord) :
    alookup (processRecord d r) (recordKey r) =
      some (updateGem ((alookup d (recordKey r)).getD { name := recordKey r })
        r.variant (gem_quality_type r.name) r.chaosValue (r.listingCount.getD 0)) := by
  rw [processRecord_eq]; exact alookup_create_self ..

theorem processRecord_other (d : GemDict) (r : RawRecord) (key : String)
    (h : key ≠ recordKey r) :
    alookup (processRecord d r) key = alookup d key := by
  rw [processRecord_eq]; exact alookup_create_other _ _ _ _ _ _ _ h

theorem go_over_cons (d : GemDict) (r : RawRecord) (rest : List RawRecord) :
    go_over_elements d (r :: rest) = go_over_elements (processRecord d r) rest := rfl

theorem go_over_append (d : GemDict) (l1 l2 : List RawRecord) :
    go_over_elements d (l1 ++ l2) = go_over_elements (go_over_elements d l1) l2 :=
  List.foldl_append ..

theorem processRecord_isSome (d : GemDict) (r : RawRecord) (k : String)
    (h : (alookup d k).isSome = true) :
    (alookup (processRecord d r) k).isSome = true := by
  by_cases hk : k = recordKey r
  · subst hk; rw [processRecord_self]; rfl
  · rw [processRecord_other d r k hk]; exact h

theorem go_over_isSome (d : GemDict) (l : List RawRecord) (k : String)
    (h : (alookup d k).isSome = true) :
    (alookup (go_over_elements d l) k).isSome = true := by
  induction l generalizing d with
  | nil => exact h
  | cons r rest ih => exact ih (processRecord d r) (processRecord_isSome d r k h)

theorem aupdate_congr_id (d : GemDict) (k : String) (f : Gem → Gem)
    (hf : ∀ g, f g = g) : aupdate d k f = d := by
  induction d with
  | nil => rfl
  | cons e rest ih =>
    obtain ⟨k1, g1⟩ := e
    by_cases h : k1 = k <;> simp_all [aupdate, hf]

theorem processRecord_slot_preserved (d : GemDict) (r : RawRecord) (k : String)
    (s : FieldSlot) (g : Gem) (hg : alookup d k = some g)
    (h : recordKey r ≠ k ∨ slotCond s r.variant (gem_quality_type r.name) = false) :
    ∃ g2, alookup (processRecord d r) k = some g2 ∧ slotVal s g2 = slotVal s g := by
  by_cases hk : k = recordKey r
  · subst hk
    have hcond : slotCond s r.variant (gem_quality_type r.name) = false := by
      rcases h with h | h
      · exact absurd rfl h
      · exact h
    refine ⟨_, processRecord_self d r, ?_⟩
    rw [hg, Option.getD_some, updateGem_slot, hcond, if_neg (by simp)]
  · exact ⟨g, by rw [processRecord_other d r k hk]; exact hg, rfl⟩

theorem go_over_slot_preserved (d : GemDict) (l : List RawRecord) (k : String)
    (s : FieldSlot) (g : Gem) (hg : alookup d k = some g)
    (hl : ∀ r ∈ l, recordKey r ≠ k ∨ slotCond s r.variant (gem_quality_type r.name) = false) :
    ∃ g2, alookup (go_over_elements d l) k = some g2 ∧ slotVal s g2 = slotVal s g := by
  induction l generalizing d g with
  | nil => exact ⟨g, hg, rfl⟩
  | cons r rest ih =>
    obtain ⟨g1, h1, h2⟩ := processRecord_slot_preserved d r k s g hg (hl r (by simp))
    obtain ⟨g2, h3, h4⟩ :=
      ih (processRecord d r) g1 h1 (fun r2 hr2 => hl r2 (List.mem_cons_of_mem r hr2))
    exact ⟨g2, h3, h4.trans h2⟩

/-- Claim C3: for every input name, the classifier checks the markers in the
fixed priority order Vaal, then Alternative (any of Anomalous, Divergent,
Phantasmal), then Awakened, matching each marker as a substring anywhere in
the name (contiguous occurrence, not anchored to a position), returns the
category of the first marker that matches, and returns Basic when none
match. It is a total function on strings. -/
theorem classify_priority_order (name : String) :
    gem_quality_type name =
      if "Vaal".data <:+: name.data then "Vaal"
      else if "Anomalous".data <:+: name.data then "Alternative"
      else if "Divergent".data <:+: name.data then "Alternative"
      else if "Phantasmal".data <:+: name.data then "Alternative"
      else if "Awakened".data <:+: name.data then "Awakened"
      else "Basic" := by
  have h1 := strIn_iff "Vaal" name
  have h2 := strIn_iff "Anomalous" name
  have h3 := strIn_iff "Divergent" name
  have h4 := strIn_iff "Phantasmal" name
  have h5 := strIn_iff "Awakened" name
  simp only [gem_quality_type]
  split_ifs <;> simp_all

/-- Claim C4 fails as stated: a name containing both an Alternative marker
and "Awakened", without "Vaal", is classified Alternative, because the
Alternative markers are checked before Awakened. -/
theorem classify_awakened_counterexample :
    strIn "Awakened" "Anomalous Awakened Empower" = true ∧
    strIn "Vaal" "Anomalous Awakened Empower" = false ∧
    strIn "Anomalous" "Anomalous Awakened Empower" = true ∧
    gem_quality_type "Anomalous Awakened Empower" = "Alternative" ∧
    gem_quality_type "Anomalous Awakened Empower" ≠ "Awakened" := by decide

/-- Claim C4 (amended): for every name containing "Awakened" but containing
neither "Vaal" nor any Alternative marker (Anomalous, Divergent,
Phantasmal), the classifier returns Awakened. -/
theorem classify_awakened (name : String)
    (hA : strIn "Awakened" name = true)
    (hV : strIn "Vaal" name = false)
    (h1 : strIn "Anomalous" name = false)
    (h2 : strIn "Divergent" name = false)
    (h3 : strIn "Phantasmal" name = false) :
    gem_quality_type name = "Awakened" := by
  simp [gem_quality_type, hA, hV, h1, h2, h3]

theorem classify_awakened_witness :
    gem_quality_type "Awakened Fire Penetration" = "Awakened" :=
  classify_awakened "Awakened Fire Penetration"
    (by decide) (by decide) (by decide) (by decide) (by decide)

/-- Claim C1: for every record, the update of `create_gem_object` sets
exactly the fields selected by the (variant, quality) pair per the rule
table — basePrice for ("1/20", Basic) and ("1", Alternative or Awakened);
leveledPrice and leveledListings for ("20/20", any); failPrice for
("20/20c", not Vaal) and ("5/20c", Awakened); vaalPrice for
("20/20c", Vaal); successPrice and successListings for ("21/20c", not Vaal)
and ("6/20c", Awakened) — and changes no other field of the gem object.
The guards are mutually exclusive, so the first-match-wins cascade realizes
exactly this table. -/
theorem create_gem_rule_table (obj : Gem) (variant quality : String)
    (price : ℚ) (listed : Nat) :
    (updateGem obj variant quality price listed).name = obj.name ∧
    (updateGem obj variant quality price listed).base_price =
      (if variant = "1/20" ∧ quality = "Basic" ∨
          variant = "1" ∧ (quality = "Alternative" ∨ quality = "Awakened")
        then some price else obj.base_price) ∧
    (updateGem obj variant quality price listed).leveled_price =
      (if variant = "20/20" then some price else obj.leveled_price) ∧
    (updateGem obj variant quality price listed).listed_leveled =
      (if variant = "20/20" then listed else obj.listed_leveled) ∧
    (updateGem obj variant quality price listed).fail_price =
      (if variant = "20/20c" ∧ quality ≠ "Vaal" ∨ variant = "5/20c" ∧ quality = "Awakened"
        then some price else obj.fail_price) ∧
    (updateGem obj variant quality price listed).vaal_price =
      (if variant = "20/20c" ∧ quality = "Vaal" then some price else obj.vaal_price) ∧
    (updateGem obj variant quality price listed).success_price =
      (if variant = "21/20c" ∧ quality ≠ "Vaal" ∨ variant = "6/20c" ∧ quality = "Awakened"
        then some price else obj.success_price) ∧
    (updateGem obj variant quality price listed).listed_21_20 =
      (if variant = "21/20c" ∧ quality ≠ "Vaal" ∨ variant = "6/20c" ∧ quality = "Awakened"
        then listed else obj.listed_21_20) := by
  refine ⟨updateGem_name .., ?_, ?_, ?_, ?_, ?_, ?_, ?_⟩ <;>
  · simp only [updateGem]
    split_ifs <;> simp_all <;> aesop

/-- Claim C5: a record whose (variant, quality) pair matches none of the
rule combinations is silently dropped: processing it does not raise (the
embedding is total) and changes nothing beyond the get-or-create insertion
of a fresh all-default gem object; in particular no field of the targeted
gem object is updated. -/
theorem unmatched_variant_noop (dict : GemDict) (r : RawRecord)
    (h : matchesRule r.variant (gem_quality_type r.name) = false) :
    processRecord dict r =
      if (alookup dict (recordKey r)).isNone then
        dict ++ [(recordKey r, { name := recordKey r })]
      else dict := by
  rw [processRecord_eq]
  simp only [create_gem_object]
  rw [aupdate_congr_id _ _ _ (fun g => updateGem_no_rule g _ _ _ _ h)]

theorem unmatched_variant_noop_witness :
    processRecord [] { name := "Haste", variant := "7/20", chaosValue := 3 } =
      if (alookup [] (recordKey { name := "Haste", variant := "7/20", chaosValue := 3 })).isNone
      then [] ++ [(recordKey { name := "Haste", variant := "7/20", chaosValue := 3 },
        { name := recordKey { name := "Haste", variant := "7/20", chaosValue := 3 } })]
      else [] :=
  unmatched_variant_noop [] { name := "Haste", variant := "7/20", chaosValue := 3 } (by decide)

/-- Claim C6: a raw record lacking the listingCount field is processed
exactly as one whose listing count is 0: the KeyError branch of the source
is the normal, non-raising handling of that input shape. -/
theorem missing_listing_defaults_zero (dict : GemDict) (name variant : String) (price : ℚ) :
    processRecord dict { name := name, variant := variant, chaosValue := price } =
      processRecord dict
        { name := name, variant := variant, chaosValue := price, listingCount := some 0 } := rfl

/-- Claim C2 fails as stated: the source removes every occurrence of the
substring "Vaal " from the name, not only the first one. The Vaal-quality
record named "Vaal Vaal Haste" is keyed "Haste", while removal of the first
occurrence alone would give the key "Vaal Haste", under which nothing is
stored. -/
theorem vaal_key_counterexample :
    gem_quality_type "Vaal Vaal Haste" = "Vaal" ∧
    removeFirstSpec "Vaal " "Vaal Vaal Haste" = "Vaal Haste" ∧
    go_over_elements [] [{ name := "Vaal Vaal Haste", variant := "20/20c", chaosValue := 10 }] =
      [("Haste", { name := "Haste", vaal_price := some 10 })] ∧
    alookup
      (go_over_elements [] [{ name := "Vaal Vaal Haste", variant := "20/20c", chaosValue := 10 }])
      "Vaal Haste" = none := by decide

/-- Claim C2 (amended): for every record classified Vaal, the aggregator
uses as its key the record name with every occurrence of the substring
"Vaal " removed, so a Vaal-quality record and its non-Vaal counterpart
aggregate into the same gem object: the records ("Vaal Haste", "20/20c")
and ("Haste", "1/20") produce exactly one gem object, keyed "Haste", with
both the vaal price and the base price set. -/
theorem vaal_key_normalization :
    (∀ (dict : GemDict) (r : RawRecord), gem_quality_type r.name = "Vaal" →
        processRecord dict r =
          create_gem_object dict (replaceAll "Vaal " r.name) r.variant r.chaosValue "Vaal"
            (r.listingCount.getD 0)) ∧
    go_over_elements []
        [{ name := "Vaal Haste", variant := "20/20c", chaosValue := 10 },
         { name := "Haste", variant := "1/20", chaosValue := 5 }] =
      [("Haste", { name := "Haste", base_price := some 5, vaal_price := some 10 })] := by
  constructor
  · intro dict r h
    rw [processRecord_eq, recordKey]
    simp [h]
  · decide

theorem vaal_key_normalization_witness :
    processRecord [] { name := "Vaal Haste", variant := "20/20c", chaosValue := 10 } =
      create_gem_object [] (replaceAll "Vaal " "Vaal Haste") "20/20c" 10 "Vaal" 0 :=
  vaal_key_normalization.1 [] { name := "Vaal Haste", variant := "20/20c", chaosValue := 10 }
    (by decide)

/-- Claim C7: field assignment is last-write-wins. For every prior registry
state and every input sequence split as pre ++ [r] ++ post in which r writes
a given field group of its gem and no record of post writes that same field
group of that same gem, the aggregated entry for the key of r holds in that
field group exactly the price (and listing count) carried by r — a value
independent of pre and of the prior state, so any earlier record mapping to
the same field is overwritten. -/
theorem last_write_wins (init : GemDict) (pre post : List RawRecord) (r : RawRecord)
    (s : FieldSlot)
    (hw : slotCond s r.variant (gem_quality_type r.name) = true)
    (hpost : ∀ r2 ∈ post, recordKey r2 ≠ recordKey r ∨
      slotCond s r2.variant (gem_quality_type r2.name) = false) :
    ∃ g, alookup (go_over_elements init (pre ++ r :: post)) (recordKey r) = some g ∧
      slotVal s g = slotWrite s r.chaosValue (r.listingCount.getD 0) := by
  rw [go_over_append, go_over_cons]
  obtain ⟨g2, h3, h4⟩ :=
    go_over_slot_preserved (processRecord (go_over_elements init pre) r) post (recordKey r) s
      (updateGem ((alookup (go_over_elements init pre) (recordKey r)).getD
        { name := recordKey r })
        r.variant (gem_quality_type r.name) r.chaosValue (r.listingCount.getD 0))
      (processRecord_self (go_over_elements init pre) r) hpost
  refine ⟨g2, h3, ?_⟩
  rw [h4, updateGem_slot, if_pos hw]

theorem last_write_wins_witness :
    ∃ g, alookup (go_over_elements []
        ([{ name := "Haste", variant := "1/20", chaosValue := 5 }] ++
          { name := "Haste", variant := "1/20", chaosValue := 9 } :: []))
      (recordKey { name := "Haste", variant := "1/20", chaosValue := 9 }) = some g ∧
      slotVal .base g = slotWrite .base 9 0 :=
  last_write_wins [] [{ name := "Haste", variant := "1/20", chaosValue := 5 }] []
    { name := "Haste", variant := "1/20", chaosValue := 9 } .base (by decide)
    (by intro r2 hr2; cases hr2)

/-- Claim C8: from a registry of N gem objects, `save_data` produces exactly
N rows in each of the two reports — no record is filtered out, rows with
absent fields included — with the corrupt report sorted descending by the
Success 21/20 column and the level report sorted descending by the
Leveled 20/20 column, rows whose sort-key is absent placed after every row
that has a value. -/
theorem save_data_report_shape (dict : GemDict) :
    (save_data dict).1.length = dict.length ∧
    (save_data dict).2.length = dict.length ∧
    (save_data dict).1.Pairwise
      (fun a b => descAbsentLast a.success2120 b.success2120 = true) ∧
    (save_data dict).2.Pairwise
      (fun a b => descAbsentLast a.leveled2020 b.leveled2020 = true) := by
  refine ⟨by simp [save_data], by simp [save_data], ?_, ?_⟩
  · exact @List.sorted_mergeSort CorruptRow
      (fun a b => descAbsentLast a.success2120 b.success2120)
      (fun a b c h1 h2 => descAbsentLast_trans _ _ _ h1 h2)
      (fun a b => descAbsentLast_total _ _)
      (dict.map fun kv => corruptRow kv.2)
  · exact @List.sorted_mergeSort LevelRow
      (fun a b => descAbsentLast a.leveled2020 b.leveled2020)
      (fun a b c h1 h2 => descAbsentLast_trans _ _ _ h1 h2)
      (fun a b => descAbsentLast_total _ _)
      (dict.map fun kv => levelRow kv.2)

/-- Claim C9: the registry is shared state and not a function of the current
input alone. Aggregating a second sequence on top of the registry produced
by a first one keeps every entry of the first aggregation, and two runs of
`go_over_elements` on the same input started from different prior registry
states return different mappings. -/
theorem registry_is_shared_state :
    (∀ (init : GemDict) (d1 d2 : List RawRecord) (k : String),
        (alookup (go_over_elements init d1) k).isSome = true →
        (alookup (go_over_elements (go_over_elements init d1) d2) k).isSome = true) ∧
    go_over_elements
        (go_over_elements [] [{ name := "Haste", variant := "1/20", chaosValue := 5 }])
        [{ name := "Clarity", variant := "1/20", chaosValue := 3 }] ≠
      go_over_elements [] [{ name := "Clarity", variant := "1/20", chaosValue := 3 }] := by
  constructor
  · intro init d1 d2 k h
    exact go_over_isSome (go_over_elements init d1) d2 k h
  · decide

theorem registry_is_shared_state_witness :
    (alookup (go_over_elements
        (go_over_elements [] [{ name := "Haste", variant := "1/20", chaosValue := 5 }])
        [{ name := "Clarity", variant := "1/20", chaosValue := 3 }]) "Haste").isSome = true :=
  registry_is_shared_state.1 [] [{ name := "Haste", variant := "1/20", chaosValue := 5 }]
    [{ name := "Clarity", variant := "1/20", chaosValue := 3 }] "Haste" (by decide)

/-- Claim C10: the get-or-create step runs before rule matching, so after
aggregation the registry holds a key for the normalized name of every
processed record, including records whose (variant, quality) pair matches no
rule; such a silently dropped record, aggregated alone, leaves a gem object
with every price field absent and both listing counts 0. -/
theorem key_created_even_when_dropped :
    (∀ (init : GemDict) (l : List RawRecord) (r : RawRecord), r ∈ l →
        (alookup (go_over_elements init l) (recordKey r)).isSome = true) ∧
    (∀ r : RawRecord, matchesRule r.variant (gem_quality_type r.name) = false →
        alookup (go_over_elements [] [r]) (recordKey r) = some { name := recordKey r }) := by
  constructor
  · intro init l r hr
    revert hr
    induction l generalizing init with
    | nil => intro hr; cases hr
    | cons r1 rest ih =>
      intro hr
      rcases List.mem_cons.mp hr with h | h
      · subst h
        rw [go_over_cons]
        apply go_over_isSome
        rw [processRecord_self]; rfl
      · rw [go_over_cons]; exact ih (processRecord init r1) h
  · intro r h
    show alookup (processRecord [] r) (recordKey r) = _
    rw [processRecord_self]
    simp only [alookup, Option.getD_none, updateGem_no_rule _ _ _ _ _ h]

theorem key_created_even_when_dropped_witness :
    alookup (go_over_elements [] [{ name := "Haste", variant := "7/20", chaosValue := 3 }])
      (recordKey { name := "Haste", variant := "7/20", chaosValue := 3 }) =
      some { name := recordKey { name := "Haste", variant := "7/20", chaosValue := 3 } } :=
  key_created_even_when_dropped.2 { name := "Haste", variant := "7/20", chaosValue := 3 }
    (by decide)

end GemProfit
